import Mathlib

/-!
Verification of the request-handling/validation component of the credit-rating
scoring service (`app/fastapi_handler_regression.py`, class `FastApiHandler`).

The embedding models Python JSON-like values as the inductive type `Value`,
Python exceptions as the `Except String` error monad (the `String` is the
exception's message, as produced by `str(e)`), and the loaded CatBoost model
as an opaque batch-prediction function carried in the `FastApiHandler`
structure.  Numeric values are modelled as `Int`; the `float(..)` conversion
applied to the model's (already numeric) output is the identity under this
modelling.  Monadic plumbing of the Python code is written as explicit
`match` on `Except` results, which is what the exception semantics desugars
to.
-/

set_option autoImplicit false

namespace CreditHandler

/-- Python values as delivered by the JSON layer: strings, numbers,
`None`, lists and dicts (a dict is its insertion-ordered association list;
real dicts have pairwise distinct keys, which the embedding does not need
to assume). -/
inductive Value where
  | vStr : String → Value
  | vNum : Int → Value
  | vNone : Value
  | vList : List Value → Value
  | vDict : List (String × Value) → Value

/-- Python `==` between a value and a `str`: true only for an equal string
(cross-type equality is `False`). -/
def Value.eqStr : Value → String → Bool
  | .vStr s, k => s == k
  | _, _ => false

/-- Substring test, the meaning of `key in s` for a Python `str` `s`. -/
def strContainsSubstr (s pat : String) : Bool :=
  if pat.isEmpty then true else (s.splitOn pat).length > 1

/-- TypeError message raised by `key in v` / iteration over a non-iterable
value of Python type `t`. -/
def notIterableMsg (t : String) : String :=
  "argument of type \x27" ++ t ++ "\x27 is not iterable"

/-- `str(KeyError(k))`: the missing key in quotes. -/
def keyErrorMsg (k : String) : String := "\x27" ++ k ++ "\x27"

/-- Python `key in v` for a string `key`: membership among dict keys,
substring test on strings, equality with some element for lists; raises
TypeError on non-iterables (`int`, `None`). -/
def Value.contains : Value → String → Except String Bool
  | .vDict es, k => .ok (es.any (fun e => e.1 == k))
  | .vList xs, k => .ok (xs.any (fun x => x.eqStr k))
  | .vStr s, k => .ok (strContainsSubstr s k)
  | .vNum _, _ => .error (notIterableMsg "int")
  | .vNone, _ => .error (notIterableMsg "NoneType")

/-- Python `v[key]` for a string `key`: dict lookup (first, i.e. unique,
binding), KeyError when absent, TypeError on the other types. -/
def Value.getItem : Value → String → Except String Value
  | .vDict es, k =>
    match es.lookup k with
    | some v => .ok v
    | none => .error (keyErrorMsg k)
  | .vStr _, _ => .error "string indices must be integers"
  | .vList _, _ => .error "list indices must be integers or slices, not str"
  | .vNum _, _ => .error "\x27int\x27 object is not subscriptable"
  | .vNone, _ => .error "\x27NoneType\x27 object is not subscriptable"

/-- `isinstance(v, str)`. -/
def Value.isStr : Value → Bool
  | .vStr _ => true
  | _ => false

/-- `isinstance(v, dict)`. -/
def Value.isDict : Value → Bool
  | .vDict _ => true
  | _ => false

/-- Python iteration `for x in v`: dict yields its keys, list its elements,
string its characters; raises TypeError on `int` / `None`. -/
def Value.iterate : Value → Except String (List Value)
  | .vDict es => .ok (es.map (fun e => Value.vStr e.1))
  | .vList xs => .ok xs
  | .vStr s => .ok (s.toList.map (fun c => Value.vStr (String.singleton c)))
  | .vNum _ => .error (notIterableMsg "int")
  | .vNone => .error (notIterableMsg "NoneType")

/-- `list(v.values())`: the dict's values in iteration order; AttributeError
on the other types. -/
def Value.valuesOf : Value → Except String (List Value)
  | .vDict es => .ok (es.map Prod.snd)
  | .vStr _ => .error "\x27str\x27 object has no attribute \x27values\x27"
  | .vList _ => .error "\x27list\x27 object has no attribute \x27values\x27"
  | .vNum _ => .error "\x27int\x27 object has no attribute \x27values\x27"
  | .vNone => .error "\x27NoneType\x27 object has no attribute \x27values\x27"

/-- The `ErrorResult` shape `{"Error": msg}` returned by `handle`. -/
def Value.mkError (msg : String) : Value :=
  Value.vDict [("Error", Value.vStr msg)]

/-- The handler state fixed at startup: `feature_names` is
`model.feature_names_` when the attribute exists (`None` otherwise), and
`model_predict` is the opaque loaded model's batch prediction
`model.predict`, one numeric output per input row. -/
structure FastApiHandler where
  feature_names : Option (List String)
  model_predict : List (List Value) → List Int

/-- The hardcoded fallback feature list of `__init__`, used when the model
exposes no (non-empty) feature-name list. -/
def default_required_model_params : List String :=
  ["gender", "Type", "PaperlessBilling", "PaymentMethod",
   "MonthlyCharges", "TotalCharges"]

/-- `self.required_model_params` as computed in `__init__`:
`feature_names` when truthy (present and non-empty), else the default list. -/
def FastApiHandler.required_model_params (h : FastApiHandler) : List String :=
  match h.feature_names with
  | some fns => if fns.isEmpty then default_required_model_params else fns
  | none => default_required_model_params

/-- The list comprehension
`[param for param in required if param not in model_params]` of
`check_required_model_params`: evaluates `param in model_params` for every
required name (so it raises exactly when `contains` does). -/
def listMissing (model_params : Value) : List String → Except String (List String)
  | [] => .ok []
  | p :: ps =>
    match model_params.contains p with
    | .error e => .error e
    | .ok b =>
      match listMissing model_params ps with
      | .error e => .error e
      | .ok rest => .ok (if b then rest else p :: rest)

/-- `all(param in model_params for param in required)`: short-circuiting
conjunction of the membership tests, in list order. -/
def containsAll (model_params : Value) : List String → Except String Bool
  | [] => .ok true
  | p :: ps =>
    match model_params.contains p with
    | .error e => .error e
    | .ok b => if b then containsAll model_params ps else .ok false

/-- `FastApiHandler.check_required_query_params`: both keys present,
`client_id` a `str`, `model_params` a `dict`; the two `in` tests, then the
two lookups with `isinstance` checks, in source order. -/
def check_required_query_params (query_params : Value) : Except String Bool :=
  match query_params.contains "client_id" with
  | .error e => .error e
  | .ok hasClient =>
    if !hasClient then .ok false
    else
      match query_params.contains "model_params" with
      | .error e => .error e
      | .ok hasModel =>
        if !hasModel then .ok false
        else
          match query_params.getItem "client_id" with
          | .error e => .error e
          | .ok cid =>
            if !cid.isStr then .ok false
            else
              match query_params.getItem "model_params" with
              | .error e => .error e
              | .ok mp =>
                if !mp.isDict then .ok false
                else .ok true

/-- `FastApiHandler.check_required_model_params`: computes the (printed-only)
`missing_params` and `extra_params` comprehensions, then returns
`all(param in model_params for param in self.required_model_params)`. -/
def check_required_model_params (h : FastApiHandler) (model_params : Value) :
    Except String Bool :=
  match listMissing model_params h.required_model_params with
  | .error e => .error e
  | .ok _missing =>
    match model_params.iterate with
    | .error e => .error e
    | .ok elems =>
      let _extra :=
        elems.filter (fun x => !(h.required_model_params.any (fun p => x.eqStr p)))
      containsAll model_params h.required_model_params

/-- `FastApiHandler.validate_params`: query-shape check first, early `False`
on failure, then the completeness check on `params["model_params"]`. -/
def validate_params (h : FastApiHandler) (params : Value) : Except String Bool :=
  match check_required_query_params params with
  | .error e => .error e
  | .ok query_check =>
    if !query_check then .ok false
    else
      match params.getItem "model_params" with
      | .error e => .error e
      | .ok mp =>
        match check_required_model_params h mp with
        | .error e => .error e
        | .ok model_check => if !model_check then .ok false else .ok true

/-- The `input_data` assembly of `credit_rating_predict`: when
`self.feature_names` is truthy, look each feature up in `model_params` in
feature order; otherwise `list(model_params.values())`. -/
def credit_input (h : FastApiHandler) (model_params : Value) :
    Except String (List Value) :=
  match h.feature_names with
  | some fns =>
    if fns.isEmpty then model_params.valuesOf
    else lookupFeatures model_params fns
  | none => model_params.valuesOf
where
  /-- `[model_params[feature] for feature in self.feature_names]`. -/
  lookupFeatures (model_params : Value) : List String → Except String (List Value)
    | [] => .ok []
    | f :: fs =>
      match model_params.getItem f with
      | .error e => .error e
      | .ok v =>
        match lookupFeatures model_params fs with
        | .error e => .error e
        | .ok rest => .ok (v :: rest)

/-- `FastApiHandler.credit_rating_predict`: assemble `input_data`, call
`self.model.predict([input_data])` and take element `[0]` (IndexError when
the batch output is empty). -/
def credit_rating_predict (h : FastApiHandler) (model_params : Value) :
    Except String Int :=
  match credit_input h model_params with
  | .error e => .error e
  | .ok input_data =>
    match h.model_predict [input_data] with
    | [] => .error "index 0 is out of bounds for axis 0 with size 0"
    | r :: _ => .ok r

/-- The body of `FastApiHandler.handle`'s `try` block: validation (inside the
`try`), early `{"Error": "Problem with parameters"}` on validation failure,
otherwise the prediction and the success response; `float(..)` on the
model's numeric output is the identity in this modelling. -/
def handleBody (h : FastApiHandler) (params : Value) : Except String Value :=
  match validate_params h params with
  | .error e => .error e
  | .ok valid =>
    if !valid then .ok (Value.mkError "Problem with parameters")
    else
      match params.getItem "model_params" with
      | .error e => .error e
      | .ok model_params =>
        match params.getItem "client_id" with
        | .error e => .error e
        | .ok client_id =>
          match credit_rating_predict h model_params with
          | .error e => .error e
          | .ok predicted_rating =>
            .ok (Value.vDict
              [("client_id", client_id),
               ("predicted_credit_rating", Value.vNum predicted_rating)])

/-- `FastApiHandler.handle`: the `try/except Exception as e` wrapper — any
exception raised inside the body becomes `{"Error": str(e)}`. -/
def handle (h : FastApiHandler) (params : Value) : Value :=
  match handleBody h params with
  | .ok response => response
  | .error e => Value.mkError e

/-! ### Spec-side characterizations

Predicates stated in terms of dictionary lookup, used to express what the
checks decide. -/

/-- The request-shape predicate of §4.2: both keys bound, `client_id` a
string, `model_params` a dict. -/
def queryShapeOk (es : List (String × Value)) : Bool :=
  match es.lookup "client_id", es.lookup "model_params" with
  | some c, some m => c.isStr && m.isDict
  | _, _ => false

/-- The completeness predicate of §4.2: every required feature name is bound
in the feature map. -/
def modelParamsOk (h : FastApiHandler) (mes : List (String × Value)) : Bool :=
  h.required_model_params.all (fun p => (mes.lookup p).isSome)

/-- Combined validation predicate: shape plus completeness of the nested
feature dict. -/
def validOk (h : FastApiHandler) (es : List (String × Value)) : Bool :=
  match es.lookup "client_id", es.lookup "model_params" with
  | some c, some (Value.vDict mes) => c.isStr && modelParamsOk h mes
  | _, _ => false

/-! ### Concrete fixtures for witnesses and counterexamples -/

/-- A handler whose model exposes the feature names `["a", "b"]` and
predicts, for each row, the row length (an arbitrary concrete stand-in for
the opaque regression model). -/
def hAB : FastApiHandler :=
  ⟨some ["a", "b"], fun rows => rows.map (fun r => Int.ofNat r.length)⟩

/-- A handler in the fallback configuration: the model exposes no feature
names, so the default required list is used and prediction consumes the
values in dict-iteration order.  The model again predicts the row length. -/
def hFB : FastApiHandler :=
  ⟨none, fun rows => rows.map (fun r => Int.ofNat r.length)⟩

/-- A handler whose model returns an empty batch output, making the `[0]`
indexing in `credit_rating_predict` fail. -/
def hEmptyOut : FastApiHandler := ⟨some ["a", "b"], fun _ => []⟩

/-- A feature map binding exactly the six fallback feature names. -/
def mp6 : List (String × Value) :=
  [("gender", Value.vNum 1), ("Type", Value.vNum 0),
   ("PaperlessBilling", Value.vNum 1), ("PaymentMethod", Value.vNum 0),
   ("MonthlyCharges", Value.vNum 50), ("TotalCharges", Value.vNum 288)]

/-- A well-shaped request carrying the feature map `mes`. -/
def mkRequest (cid : String) (mes : List (String × Value)) : Value :=
  Value.vDict [("client_id", Value.vStr cid), ("model_params", Value.vDict mes)]

/-! ### Characterization lemmas -/

lemma any_key_eq_lookup_isSome (es : List (String × Value)) (k : String) :
    es.any (fun e => e.1 == k) = (es.lookup k).isSome := by
  induction es with
  | nil => rfl
  | cons e es ih =>
    by_cases hk : k = e.1
    · simp [List.lookup, hk]
    · have h1 : (e.1 == k) = false := beq_eq_false_iff_ne.mpr (fun hh => hk hh.symm)
      have h2 : (k == e.1) = false := beq_eq_false_iff_ne.mpr hk
      simp [List.lookup, h1, h2, ih]

lemma containsAll_vDict (es : List (String × Value)) (l : List String) :
    containsAll (Value.vDict es) l = .ok (l.all (fun p => (es.lookup p).isSome)) := by
  induction l with
  | nil => rfl
  | cons p ps ih =>
    cases hl : es.lookup p with
    | none =>
      simp [containsAll, Value.contains, any_key_eq_lookup_isSome, hl]
    | some v =>
      simp [containsAll, Value.contains, any_key_eq_lookup_isSome, hl, ih]

lemma listMissing_vDict (es : List (String × Value)) (l : List String) :
    listMissing (Value.vDict es) l =
      .ok (l.filter (fun p => !(es.lookup p).isSome)) := by
  induction l with
  | nil => rfl
  | cons p ps ih =>
    simp only [listMissing, Value.contains, any_key_eq_lookup_isSome, ih,
      List.filter_cons]
    cases hb : (es.lookup p).isSome <;> simp

lemma check_model_vDict (h : FastApiHandler) (mes : List (String × Value)) :
    check_required_model_params h (Value.vDict mes) = .ok (modelParamsOk h mes) := by
  simp [check_required_model_params, listMissing_vDict, Value.iterate,
    containsAll_vDict, modelParamsOk]

lemma check_query_vDict (es : List (String × Value)) :
    check_required_query_params (Value.vDict es) = .ok (queryShapeOk es) := by
  simp only [check_required_query_params, Value.contains, Value.getItem,
    any_key_eq_lookup_isSome, queryShapeOk]
  cases hc : es.lookup "client_id" with
  | none => simp
  | some c =>
    cases hm : es.lookup "model_params" with
    | none => simp
    | some m =>
      cases hcs : c.isStr <;> cases hmd : m.isDict <;> simp [hcs, hmd]

lemma validate_vDict (h : FastApiHandler) (es : List (String × Value)) :
    validate_params h (Value.vDict es) = .ok (validOk h es) := by
  simp only [validate_params, check_query_vDict, queryShapeOk, validOk,
    Value.getItem]
  cases hc : es.lookup "client_id" with
  | none => simp
  | some c =>
    cases hm : es.lookup "model_params" with
    | none => simp
    | some m =>
      cases m with
      | vDict mes =>
        cases hcs : c.isStr
        · simp [hcs, Value.isDict]
        · cases hmp : modelParamsOk h mes <;>
            simp [hcs, hmp, Value.isDict, check_model_vDict]
      | vStr s => simp [Value.isDict]
      | vNum n => simp [Value.isDict]
      | vNone => simp [Value.isDict]
      | vList xs => simp [Value.isDict]

lemma handle_validate_error (h : FastApiHandler) (params : Value) (e : String)
    (hv : validate_params h params = .error e) :
    handle h params = Value.mkError e := by
  simp [handle, handleBody, hv]

lemma handle_validate_false (h : FastApiHandler) (params : Value)
    (hv : validate_params h params = .ok false) :
    handle h params = Value.mkError "Problem with parameters" := by
  simp [handle, handleBody, hv]

lemma lookup_isSome_iff_mem_keys (es : List (String × Value)) (k : String) :
    (es.lookup k).isSome = true ↔ k ∈ es.map Prod.fst := by
  induction es with
  | nil => simp [List.lookup]
  | cons e es ih =>
    by_cases hk : k = e.1
    · simp [List.lookup, hk]
    · simp [List.lookup, beq_eq_false_iff_ne.mpr hk, hk, ih]

lemma lookup_isSome_perm {mes mes' : List (String × Value)}
    (hperm : mes.Perm mes') (p : String) :
    (mes.lookup p).isSome = (mes'.lookup p).isSome := by
  rw [Bool.eq_iff_iff, lookup_isSome_iff_mem_keys, lookup_isSome_iff_mem_keys]
  exact (hperm.map Prod.fst).mem_iff

lemma check_query_true_inv (params : Value)
    (hq : check_required_query_params params = .ok true) :
    ∃ es c mes, params = Value.vDict es ∧
      es.lookup "client_id" = some c ∧ c.isStr = true ∧
      es.lookup "model_params" = some (Value.vDict mes) := by
  cases params with
  | vDict es =>
    rw [check_query_vDict] at hq
    unfold queryShapeOk at hq
    cases hc : es.lookup "client_id" with
    | none => rw [hc] at hq; simp at hq
    | some c =>
      cases hm : es.lookup "model_params" with
      | none => rw [hc, hm] at hq; simp at hq
      | some m =>
        rw [hc, hm] at hq
        simp only [Except.ok.injEq, Bool.and_eq_true] at hq
        cases m with
        | vDict mes => exact ⟨es, c, mes, rfl, hc, hq.1, hm⟩
        | vStr s => simp [Value.isDict] at hq
        | vNum n => simp [Value.isDict] at hq
        | vNone => simp [Value.isDict] at hq
        | vList xs => simp [Value.isDict] at hq
  | vStr s =>
    exfalso
    simp only [check_required_query_params, Value.contains, Value.getItem] at hq
    split at hq
    · simp at hq
    · split at hq <;> simp at hq
  | vList xs =>
    exfalso
    simp only [check_required_query_params, Value.contains, Value.getItem] at hq
    split at hq
    · simp at hq
    · split at hq <;> simp at hq
  | vNum n => simp [check_required_query_params, Value.contains] at hq
  | vNone => simp [check_required_query_params, Value.contains] at hq

lemma validate_true_inv (h : FastApiHandler) (params : Value)
    (hv : validate_params h params = .ok true) :
    ∃ es c mes, params = Value.vDict es ∧
      es.lookup "client_id" = some c ∧ c.isStr = true ∧
      es.lookup "model_params" = some (Value.vDict mes) ∧
      modelParamsOk h mes = true := by
  have hq : check_required_query_params params = .ok true := by
    cases hcq : check_required_query_params params with
    | error e => simp [validate_params, hcq] at hv
    | ok b =>
      cases b
      · simp [validate_params, hcq] at hv
      · rfl
  obtain ⟨es, c, mes, heq, hc, hcs, hm⟩ := check_query_true_inv params hq
  subst heq
  refine ⟨es, c, mes, rfl, hc, hcs, hm, ?_⟩
  rw [validate_vDict] at hv
  unfold validOk at hv
  rw [hc, hm] at hv
  simp [hcs, Bool.and_eq_true] at hv
  exact hv

lemma required_eq_of_feature_names (h : FastApiHandler) (fns : List String)
    (hfn : h.feature_names = some fns) (hne : fns ≠ []) :
    h.required_model_params = fns := by
  have hie : fns.isEmpty = false := by
    cases fns with
    | nil => exact absurd rfl hne
    | cons a l => rfl
  simp [FastApiHandler.required_model_params, hfn, hie]

lemma lookupFeatures_total (mes : List (String × Value)) (fns : List String)
    (hall : ∀ p ∈ fns, (mes.lookup p).isSome = true) :
    ∃ vs, credit_input.lookupFeatures (Value.vDict mes) fns = .ok vs := by
  induction fns with
  | nil => exact ⟨[], rfl⟩
  | cons f fs ih =>
    obtain ⟨v, hv⟩ :=
      Option.isSome_iff_exists.mp (hall f (List.mem_cons_self f fs))
    obtain ⟨vs, hvs⟩ := ih (fun p hp => hall p (List.mem_cons_of_mem f hp))
    exact ⟨v :: vs,
      by simp [credit_input.lookupFeatures, Value.getItem, hv, hvs]⟩

lemma lookup_append_of_isSome (mes extra : List (String × Value)) (p : String)
    (hs : (mes.lookup p).isSome = true) :
    (mes ++ extra).lookup p = mes.lookup p := by
  induction mes with
  | nil => simp [List.lookup] at hs
  | cons e es ih =>
    rw [List.cons_append]
    by_cases hk : p = e.1
    · simp [List.lookup, hk]
    · have hb : (p == e.1) = false := beq_eq_false_iff_ne.mpr hk
      simp only [List.lookup, hb] at hs ⊢
      exact ih hs

lemma lookupFeatures_append (mes extra : List (String × Value))
    (fns : List String)
    (hall : ∀ p ∈ fns, (mes.lookup p).isSome = true) :
    credit_input.lookupFeatures (Value.vDict (mes ++ extra)) fns =
      credit_input.lookupFeatures (Value.vDict mes) fns := by
  induction fns with
  | nil => rfl
  | cons f fs ih =>
    have h1 : (mes ++ extra).lookup f = mes.lookup f :=
      lookup_append_of_isSome mes extra f (hall f (List.mem_cons_self f fs))
    have ih' := ih (fun p hp => hall p (List.mem_cons_of_mem f hp))
    simp [credit_input.lookupFeatures, Value.getItem, h1, ih']

lemma validate_mkRequest (h : FastApiHandler) (cid : String)
    (mes : List (String × Value)) :
    validate_params h (mkRequest cid mes) = .ok (modelParamsOk h mes) := by
  rw [mkRequest, validate_vDict]
  rfl

lemma handleBody_ok_shape (h : FastApiHandler) (params : Value) (v : Value)
    (hok : handleBody h params = .ok v) :
    v = Value.mkError "Problem with parameters" ∨
      ∃ c r, v = Value.vDict
        [("client_id", c), ("predicted_credit_rating", Value.vNum r)] := by
  unfold handleBody at hok
  split at hok
  · simp at hok
  · split at hok
    · cases hok
      exact Or.inl rfl
    · split at hok
      · simp at hok
      · split at hok
        · simp at hok
        · split at hok
          · simp at hok
          · cases hok
            exact Or.inr ⟨_, _, rfl⟩

/-! ### Claims -/

/-- Claim C2: every request that fails validation gets exactly
`{"Error": "Problem with parameters"}` from `handle`; in particular a dict
missing the key `client_id` or the key `model_params`, and a well-shaped
request with an empty `model_params` against a non-empty required schema. -/
theorem claim_C2_validation_failure_response (h : FastApiHandler) :
    (∀ params, validate_params h params = .ok false →
        handle h params = Value.mkError "Problem with parameters") ∧
    (∀ es : List (String × Value),
        es.lookup "client_id" = none ∨ es.lookup "model_params" = none →
        handle h (Value.vDict es) = Value.mkError "Problem with parameters") ∧
    (∀ cid : String, h.required_model_params ≠ [] →
        handle h (mkRequest cid []) = Value.mkError "Problem with parameters") := by
  refine ⟨fun params hv => handle_validate_false h params hv,
    fun es hmiss => ?_, fun cid hne => ?_⟩
  · apply handle_validate_false
    rw [validate_vDict]
    unfold validOk
    rcases hmiss with hm | hm
    · simp [hm]
    · cases hc : es.lookup "client_id" <;> simp [hc, hm]
  · apply handle_validate_false
    have hq : check_required_query_params (mkRequest cid []) = .ok true := rfl
    have hg : (mkRequest cid []).getItem "model_params" = .ok (Value.vDict []) := rfl
    have hm : check_required_model_params h (Value.vDict []) = .ok false := by
      rw [check_model_vDict]
      unfold modelParamsOk
      cases hr : h.required_model_params with
      | nil => exact absurd hr hne
      | cons r rs => simp
    simp [validate_params, hq, hg, hm]

/-- Witness for C2 at a concrete input: a request missing `client_id`. -/
theorem claim_C2_witness :
    handle hAB (Value.vDict [("model_params", Value.vDict [])]) =
      Value.mkError "Problem with parameters" :=
  (claim_C2_validation_failure_response hAB).2.1 _ (Or.inl rfl)

/-- Claim C10: `handle` is total over arbitrary inputs, not only well-shaped
requests: when validation itself raises — as on `None` or an integer, which
the `in` tests of the shape check reject as non-iterable — the exception is
caught (validation runs inside the `try` block) and `{"Error": <exception
message>}` is returned instead of the fault propagating. -/
theorem claim_C10_handle_total_on_arbitrary_inputs (h : FastApiHandler) :
    (∀ params e, validate_params h params = .error e →
        handle h params = Value.mkError e) ∧
    handle h Value.vNone = Value.mkError (notIterableMsg "NoneType") ∧
    (∀ n : Int, handle h (Value.vNum n) = Value.mkError (notIterableMsg "int")) := by
  refine ⟨fun params e hv => handle_validate_error h params e hv, ?_, fun n => ?_⟩
  · exact handle_validate_error h _ _ rfl
  · exact handle_validate_error h _ _ rfl

/-- Witness for C10 at a concrete input: the handler on `None`. -/
theorem claim_C10_witness :
    handle hAB Value.vNone = Value.mkError (notIterableMsg "NoneType") :=
  (claim_C10_handle_total_on_arbitrary_inputs hAB).1 Value.vNone _ rfl

/-- Claim C3: with feature names exposed, the feature vector is assembled by
looking each schema name up in `model_params` in schema order — for schema
`["a", "b"]` and `model_params` bound as `b = 2, a = 1` the vector is
`[1, 2]`; with no feature names (fallback), the vector is the dict's values
in iteration order. -/
theorem claim_C3_feature_vector_schema_order :
    credit_input hAB (Value.vDict [("b", Value.vNum 2), ("a", Value.vNum 1)]) =
      .ok [Value.vNum 1, Value.vNum 2] ∧
    (∀ (h : FastApiHandler) (es : List (String × Value)),
        h.feature_names = none →
        credit_input h (Value.vDict es) = .ok (es.map Prod.snd)) := by
  refine ⟨rfl, fun h es hfn => ?_⟩
  simp [credit_input, hfn, Value.valuesOf]

/-- Witness for C3 at a concrete input: fallback assembly keeps the dict's
iteration order. -/
theorem claim_C3_witness :
    credit_input hFB (Value.vDict [("b", Value.vNum 2), ("a", Value.vNum 1)]) =
      .ok [Value.vNum 2, Value.vNum 1] :=
  claim_C3_feature_vector_schema_order.2 hFB _ rfl

/-- Claim C4: on a dict, `check_required_query_params` never raises, and
returns `true` exactly when the key `client_id` is bound to a string and the
key `model_params` is bound to a dict; any single missing key or wrong type
yields `false`. -/
theorem claim_C4_check_required_query_params_iff (es : List (String × Value)) :
    (∃ b, check_required_query_params (Value.vDict es) = .ok b) ∧
    (check_required_query_params (Value.vDict es) = .ok true ↔
      (∃ c, es.lookup "client_id" = some c ∧ c.isStr = true) ∧
      (∃ m, es.lookup "model_params" = some m ∧ m.isDict = true)) := by
  refine ⟨⟨queryShapeOk es, check_query_vDict es⟩, ?_⟩
  rw [check_query_vDict]
  unfold queryShapeOk
  cases hc : es.lookup "client_id" with
  | none => simp
  | some c =>
    cases hm : es.lookup "model_params" with
    | none => simp
    | some m => simp [Bool.and_eq_true]

/-- Claim C5: on a dict, `check_required_model_params` returns `true` exactly
when every required schema name is a key of the feature map — extra keys
cannot make it `false` — and its result is invariant under permutation of
the feature map's entries. -/
theorem claim_C5_check_required_model_params_iff (h : FastApiHandler)
    (mes : List (String × Value)) :
    (check_required_model_params h (Value.vDict mes) = .ok true ↔
      ∀ p ∈ h.required_model_params, (mes.lookup p).isSome = true) ∧
    (∀ mes' : List (String × Value), mes.Perm mes' →
      check_required_model_params h (Value.vDict mes) =
        check_required_model_params h (Value.vDict mes')) := by
  constructor
  · rw [check_model_vDict]
    unfold modelParamsOk
    simp [List.all_eq_true]
  · intro mes' hperm
    rw [check_model_vDict, check_model_vDict]
    unfold modelParamsOk
    have hfun : (fun p => (mes.lookup p).isSome) =
        (fun p => (mes'.lookup p).isSome) := by
      funext p
      exact lookup_isSome_perm hperm p
    rw [hfun]

/-- Witness for C5 at a concrete input: swapping the two entries of the
feature map leaves the check's result unchanged. -/
theorem claim_C5_witness :
    check_required_model_params hAB
        (Value.vDict [("a", Value.vNum 1), ("b", Value.vNum 2)]) =
      check_required_model_params hAB
        (Value.vDict [("b", Value.vNum 2), ("a", Value.vNum 1)]) :=
  (claim_C5_check_required_model_params_iff hAB _).2 _ (List.Perm.swap _ _ _)

/-- Claim C6: `validate_params` is the short-circuit conjunction of the two
checks — when the shape check returns `false` it returns `false` without
consulting the feature map, and when the shape check returns `true` it
returns exactly the completeness check's result on `params["model_params"]`. -/
theorem claim_C6_validate_params_short_circuit (h : FastApiHandler)
    (params : Value) :
    (check_required_query_params params = .ok false →
        validate_params h params = .ok false) ∧
    (check_required_query_params params = .ok true →
        ∃ mp, params.getItem "model_params" = .ok mp ∧
          validate_params h params = check_required_model_params h mp) := by
  constructor
  · intro hq
    simp [validate_params, hq]
  · intro hq
    obtain ⟨es, c, mes, heq, hc, hcs, hm⟩ := check_query_true_inv params hq
    subst heq
    refine ⟨Value.vDict mes, ?_, ?_⟩
    · simp [Value.getItem, hm]
    · rw [check_model_vDict, validate_vDict]
      unfold validOk
      rw [hc, hm]
      simp [hcs]

/-- Witness for C6 at a concrete input: a request whose `client_id` is not a
string fails the shape check, so validation returns `false`. -/
theorem claim_C6_witness :
    validate_params hAB
        (Value.vDict [("client_id", Value.vNum 7),
          ("model_params", Value.vDict [])]) = .ok false :=
  (claim_C6_validate_params_short_circuit hAB _).1 rfl

/-- Claim C1: `handle` always returns one of the two result shapes — the
success object or the error object, which are distinct — and whenever the
body of the `try` block raises with message `e`, the exception is caught and
`{"Error": e}` is returned instead of propagating. -/
theorem claim_C1_handle_error_containment (h : FastApiHandler) (params : Value) :
    ((∃ m, handle h params = Value.mkError m) ∨
      ∃ c r, handle h params = Value.vDict
        [("client_id", c), ("predicted_credit_rating", Value.vNum r)]) ∧
    (∀ m c r, Value.mkError m ≠ Value.vDict
        [("client_id", c), ("predicted_credit_rating", Value.vNum r)]) ∧
    (∀ e, handleBody h params = .error e → handle h params = Value.mkError e) := by
  refine ⟨?_, ?_, fun e he => by simp [handle, he]⟩
  · cases hb : handleBody h params with
    | error e => exact Or.inl ⟨e, by simp [handle, hb]⟩
    | ok v =>
      have hv : handle h params = v := by simp [handle, hb]
      rcases handleBody_ok_shape h params v hb with h1 | ⟨c, r, h2⟩
      · exact Or.inl ⟨"Problem with parameters", by rw [hv, h1]⟩
      · exact Or.inr ⟨c, r, by rw [hv, h2]⟩
  · intro m c r
    simp [Value.mkError]

/-- Witness for C1 at a concrete input: a model returning an empty batch
output makes the `[0]` indexing raise, and `handle` returns the IndexError
message as an error object. -/
theorem claim_C1_witness :
    handle hEmptyOut (mkRequest "1" [("a", Value.vNum 3), ("b", Value.vNum 4)]) =
      Value.mkError "index 0 is out of bounds for axis 0 with size 0" :=
  (claim_C1_handle_error_containment hEmptyOut _).2.2 _ rfl

/-- Claim C7: on a request that passes validation and whose inference raises
no exception, `handle` returns the request's `client_id` unchanged together
with the first (only) element of the model's prediction on the single-row
batch `[input_data]` (the `float` conversion of the numeric output is the
identity in this modelling). -/
theorem claim_C7_success_response (h : FastApiHandler) (params : Value)
    (cid mp : Value) (input : List Value) (r : Int) (rest : List Int)
    (hv : validate_params h params = .ok true)
    (hmp : params.getItem "model_params" = .ok mp)
    (hcid : params.getItem "client_id" = .ok cid)
    (hinput : credit_input h mp = .ok input)
    (hpred : h.model_predict [input] = r :: rest) :
    handle h params = Value.vDict
      [("client_id", cid), ("predicted_credit_rating", Value.vNum r)] := by
  simp [handle, handleBody, hv, hmp, hcid, credit_rating_predict, hinput, hpred]

/-- Witness for C7 at a concrete input: the row-length model on a request
with both schema features present. -/
theorem claim_C7_witness :
    handle hAB (mkRequest "123" [("a", Value.vNum 1), ("b", Value.vNum 2)]) =
      Value.vDict [("client_id", Value.vStr "123"),
        ("predicted_credit_rating", Value.vNum 2)] :=
  claim_C7_success_response hAB _ (Value.vStr "123")
    (Value.vDict [("a", Value.vNum 1), ("b", Value.vNum 2)])
    [Value.vNum 1, Value.vNum 2] 2 [] rfl rfl rfl rfl rfl

/-- Claim C9: when the model exposes a (non-empty) feature-name list — so
`required_model_params` is exactly `feature_names` — validation success
guarantees that every per-feature lookup of the assembly phase succeeds: the
KeyError branch of `credit_rating_predict` is unreachable. -/
theorem claim_C9_no_keyerror_after_validation (h : FastApiHandler)
    (params mp : Value) (fns : List String)
    (hfn : h.feature_names = some fns) (hne : fns ≠ [])
    (hv : validate_params h params = .ok true)
    (hmp : params.getItem "model_params" = .ok mp) :
    ∃ input, credit_input h mp = .ok input := by
  obtain ⟨es, c, mes, heq, hc, hcs, hm, hmo⟩ := validate_true_inv h params hv
  subst heq
  have hmp' : mp = Value.vDict mes := by
    simp [Value.getItem, hm] at hmp
    exact hmp.symm
  subst hmp'
  have hreq : h.required_model_params = fns :=
    required_eq_of_feature_names h fns hfn hne
  have hie : fns.isEmpty = false := by
    cases fns with
    | nil => exact absurd rfl hne
    | cons a l => rfl
  have hall : ∀ p ∈ fns, (mes.lookup p).isSome = true := by
    unfold modelParamsOk at hmo
    rw [hreq, List.all_eq_true] at hmo
    exact hmo
  simpa [credit_input, hfn, hie] using lookupFeatures_total mes fns hall

/-- Witness for C9 at a concrete input. -/
theorem claim_C9_witness :
    ∃ input, credit_input hAB
        (Value.vDict [("a", Value.vNum 1), ("b", Value.vNum 2)]) = .ok input :=
  claim_C9_no_keyerror_after_validation hAB
    (mkRequest "123" [("a", Value.vNum 1), ("b", Value.vNum 2)]) _ ["a", "b"]
    rfl (by decide) rfl rfl

/-- Counterexample to C8 as stated: in the fallback configuration (no
feature names exposed), a request that passes validation and one extra entry
whose key is outside the required schema produce different outputs — the
fallback assembly feeds all of `model_params`'s values to the model, extra
entries included. -/
theorem claim_C8_counterexample :
    validate_params hFB (mkRequest "1" mp6) = .ok true ∧
    "zzz" ∉ hFB.required_model_params ∧
    validate_params hFB (mkRequest "1" (mp6 ++ [("zzz", Value.vNum 0)])) =
      .ok true ∧
    handle hFB (mkRequest "1" (mp6 ++ [("zzz", Value.vNum 0)])) ≠
      handle hFB (mkRequest "1" mp6) := by
  refine ⟨rfl, by decide, rfl, ?_⟩
  have h1 : handle hFB (mkRequest "1" (mp6 ++ [("zzz", Value.vNum 0)])) =
      Value.vDict [("client_id", Value.vStr "1"),
        ("predicted_credit_rating", Value.vNum 7)] := rfl
  have h2 : handle hFB (mkRequest "1" mp6) =
      Value.vDict [("client_id", Value.vStr "1"),
        ("predicted_credit_rating", Value.vNum 6)] := rfl
  rw [h1, h2]
  intro heq
  simp at heq

/-- Claim C8 (amended): when the model exposes a non-empty feature-name
list, extra entries whose keys are outside the required schema influence
neither validation nor the assembled feature vector nor the prediction:
`handle` returns the same output with and without them appended to
`model_params`. -/
theorem claim_C8_extra_keys_unused (h : FastApiHandler) (fns : List String)
    (cid : String) (mes extra : List (String × Value))
    (hfn : h.feature_names = some fns) (hne : fns ≠ [])
    (_hx : ∀ q ∈ extra, q.1 ∉ h.required_model_params)
    (hv : validate_params h (mkRequest cid mes) = .ok true) :
    handle h (mkRequest cid (mes ++ extra)) = handle h (mkRequest cid mes) := by
  have hreq : h.required_model_params = fns :=
    required_eq_of_feature_names h fns hfn hne
  have hie : fns.isEmpty = false := by
    cases fns with
    | nil => exact absurd rfl hne
    | cons a l => rfl
  have hmo : modelParamsOk h mes = true := by
    rw [validate_mkRequest] at hv
    simpa using hv
  have hall : ∀ p ∈ h.required_model_params, (mes.lookup p).isSome = true := by
    unfold modelParamsOk at hmo
    rw [List.all_eq_true] at hmo
    exact hmo
  have hmo' : modelParamsOk h (mes ++ extra) = true := by
    unfold modelParamsOk
    rw [List.all_eq_true]
    intro p hp
    rw [lookup_append_of_isSome mes extra p (hall p hp)]
    exact hall p hp
  have hci : credit_input h (Value.vDict (mes ++ extra)) =
      credit_input h (Value.vDict mes) := by
    have hallf : ∀ p ∈ fns, (mes.lookup p).isSome = true := by
      rw [hreq] at hall
      exact hall
    simp [credit_input, hfn, hie, lookupFeatures_append mes extra fns hallf]
  have hv1 : validate_params h (mkRequest cid (mes ++ extra)) = .ok true := by
    rw [validate_mkRequest, hmo']
  have hv2 : validate_params h (mkRequest cid mes) = .ok true := by
    rw [validate_mkRequest, hmo]
  have hg1 : (mkRequest cid (mes ++ extra)).getItem "model_params" =
      .ok (Value.vDict (mes ++ extra)) := rfl
  have hg2 : (mkRequest cid mes).getItem "model_params" =
      .ok (Value.vDict mes) := rfl
  have hc1 : (mkRequest cid (mes ++ extra)).getItem "client_id" =
      .ok (Value.vStr cid) := rfl
  have hc2 : (mkRequest cid mes).getItem "client_id" =
      .ok (Value.vStr cid) := rfl
  simp [handle, handleBody, hv1, hv2, hg1, hg2, hc1, hc2,
    credit_rating_predict, hci]

/-- Witness for the amended C8 at a concrete input: appending an extra entry
to a valid request leaves the schema-ordered handler's output unchanged. -/
theorem claim_C8_witness :
    handle hAB (mkRequest "1"
        ([("a", Value.vNum 1), ("b", Value.vNum 2)] ++
          [("zzz", Value.vNum 0)])) =
      handle hAB (mkRequest "1" [("a", Value.vNum 1), ("b", Value.vNum 2)]) :=
  claim_C8_extra_keys_unused hAB ["a", "b"] "1" _ _ rfl (by decide)
    (by decide) rfl

end CreditHandler
